import Mathlib

/-
Shallow embedding of `src/opcontrol.c` (teleoperation control loop of the
skills-2016-mini-bot robot).  C `int8_t`/`int16_t` arithmetic is modelled on
`Int` (no overflow occurs on the ranges the code reaches), C truncating
integer division and float-to-int conversion are modelled by `Int.tdiv`
(truncation toward zero), and the float intermediates of the input-shaping
and normalization steps are modelled by exact arithmetic followed by
truncation: on the int8 input range the float rounding error (relative
error below 2^-22) is far smaller than the distance from the exact value
to the next integer, so the truncated results coincide.
-/

namespace OpControl

/-- Modelled from the spec: `MAX_SPEED` is declared in the platform header
`main.h`, which is not under `src/`.  The spec fixes analog inputs and motor
commands to signed 8-bit values in `[-MAX_SPEED, MAX_SPEED]`, hence
`MAX_SPEED = 127`. -/
def MAX_SPEED : Int := 127

/-- Constant `CLAW_SPEED` from `src/opcontrol.c` line 47. -/
def CLAW_SPEED : Int := -60

/-- Constant `CLAW_OPEN_DURATION` from `src/opcontrol.c` line 48. -/
def CLAW_OPEN_DURATION : Int := 30

/-- Constant `GRIP_STRENGTH` from `src/opcontrol.c` line 49. -/
def GRIP_STRENGTH : Int := -40

/-- Constant `LOW_SPEED_DIVISOR` from `src/opcontrol.c` line 61. -/
def LOW_SPEED_DIVISOR : Int := 2

/-- Input-shaping branch of `drive` (`src/opcontrol.c` lines 68-80):
`m = x / MAX_SPEED; m *= fabs(m); m *= MAX_SPEED; x = m`, i.e.
`sign(x) * x^2 / MAX_SPEED` truncated toward zero on conversion back to
`int8_t`. -/
def shape (x : Int) : Int := (x * |x|).tdiv MAX_SPEED

/-- Mixing step, left wheel (`src/opcontrol.c` line 82): `speed[0] = drive + turn`. -/
def mixLeft (d t : Int) : Int := d + t

/-- Mixing step, right wheel (`src/opcontrol.c` line 83): `speed[1] = -drive + turn`. -/
def mixRight (d t : Int) : Int := -d + t

/-- Loop of `src/opcontrol.c` lines 85-91: `maxRawSpeed` is the larger of the
absolute values of the two mixed speeds (starting from 0). -/
def maxRawSpeed (l r : Int) : Int := max |l| |r|

/-- Normalization step (`src/opcontrol.c` lines 93-97): when
`maxRawSpeed > MAX_SPEED`, both speeds are divided by
`scale = maxRawSpeed / MAX_SPEED`, i.e. multiplied by `MAX_SPEED` and
truncated after division by `maxRawSpeed`; otherwise they pass through. -/
def normalize (l r : Int) : Int × Int :=
  if MAX_SPEED < maxRawSpeed l r then
    ((l * MAX_SPEED).tdiv (maxRawSpeed l r), (r * MAX_SPEED).tdiv (maxRawSpeed l r))
  else (l, r)

/-- Function `drive` of `src/opcontrol.c` lines 63-97, up to the pair of
left/right speeds handed to the velocity filter (`getfSpeed`, an external
component) and then to the motors. -/
def drive (driveIn turnIn : Int) (squareInputs : Bool) : Int × Int :=
  let d := if squareInputs then shape driveIn else driveIn
  let t := if squareInputs then shape turnIn else turnIn
  normalize (mixLeft d t) (mixRight d t)

/-- Logical state of a tracked toggle button. -/
inductive ButtonState where
  | idle
  | pressed
  | held
  | released
deriving DecidableEq

/-- Modelled from the spec: the toggle-button tracker (`togglebtn.h`, whose
implementation is not under `src/`) derives the logical state from the last
two sampled raw levels: `PRESSED` exactly on the low-to-high transition
cycle, `HELD` while the raw level stays high afterwards, `RELEASED` exactly
on the high-to-low transition cycle, `IDLE` otherwise. -/
def toggleBtnGet (prev cur : Bool) : ButtonState :=
  if cur then (if prev then .held else .pressed)
  else (if prev then .released else .idle)

/-- Claw-related mutable state of `operatorControl` (`src/opcontrol.c` lines
137-138): the `closeClaw` flag and the progress counter `i`. -/
structure ClawState where
  closeClaw : Bool
  i : Int
deriving DecidableEq

/-- Initial claw state (`src/opcontrol.c` lines 137-138): `closeClaw = false`,
`i = 0`. -/
def clawInit : ClawState := ⟨false, 0⟩

/-- Else-branch of the claw block (`src/opcontrol.c` lines 177-194): flip
`closeClaw` on a press edge of the toggle button, then run the open/close
ramp.  Returns the new state and the claw motor command. -/
def clawNormal (toggleBtn : ButtonState) (s : ClawState) : ClawState × Int :=
  let c := if toggleBtn = .pressed then !s.closeClaw else s.closeClaw
  if c then
    if s.i < CLAW_OPEN_DURATION then (⟨c, s.i + 1⟩, CLAW_SPEED)
    else (⟨c, s.i⟩, GRIP_STRENGTH)
  else if 0 < s.i then (⟨c, s.i - 1⟩, -CLAW_SPEED)
  else (⟨c, s.i⟩, 0)

/-- Claw block of `operatorControl` (`src/opcontrol.c` lines 171-195): the
manual-open override branches on the tracked state of the group-8 left
button, and otherwise defers to `clawNormal`. -/
def clawStep (openBtn toggleBtn : ButtonState) (s : ClawState) : ClawState × Int :=
  if openBtn = .held then (s, -CLAW_SPEED)
  else if openBtn = .released then (⟨false, 0⟩, 0)
  else clawNormal toggleBtn s

/-- Iterated claw block over a list of per-cycle button inputs (open button,
toggle button), collecting the claw motor command of each cycle. -/
def clawRun (inputs : List (ButtonState × ButtonState)) (s : ClawState) :
    ClawState × List Int :=
  match inputs with
  | [] => (s, [])
  | (ob, tb) :: rest =>
    let step := clawStep ob tb s
    let next := clawRun rest step.1
    (next.1, step.2 :: next.2)

/-- Per-cycle inputs of the `operatorControl` loop body (`src/opcontrol.c`
lines 145-225), with tracked button states for the three registered
group-8 buttons and raw digital levels for the group-6 buttons. -/
structure CycleInputs where
  btn8Left : ButtonState
  btn8Right : ButtonState
  btn8Down : ButtonState
  btn6Up : Bool
  btn6Down : Bool
  driveAxis : Int
  turnAxis : Int
  armAxis : Int

/-- Turn-speed selection of the compiled `JOYSTICK_ARM` variant
(`src/opcontrol.c` lines 153-161): the turn axis is zeroed while either
group-6 digital input is pressed. -/
def turnSpeedOf (inp : CycleInputs) : Int :=
  if inp.btn6Up || inp.btn6Down then 0 else inp.turnAxis

/-- Arm-speed computation of the compiled `JOYSTICK_ARM` variant
(`src/opcontrol.c` lines 198-204): while group-6 up is pressed the arm axis
is shaped by the same square curve (with `ARM_MAX_SPEED = MAX_SPEED`),
otherwise the arm speed is zero.  The truncation of the float value on the
`(int)` cast is folded in here. -/
def armSpeedOf (inp : CycleInputs) : Int :=
  if inp.btn6Up then shape inp.armAxis else 0

/-- Loop-carried state of `operatorControl` other than the external filter
and tracker state: the `lowSpeed` flag and the claw state. -/
structure LoopState where
  lowSpeed : Bool
  claw : ClawState
deriving DecidableEq

/-- Initial loop state (`src/opcontrol.c` lines 129, 137-138). -/
def loopInit : LoopState := ⟨false, clawInit⟩

/-- Values emitted by one cycle: the drive pair handed to the velocity
filter, the claw motor command, and the two arm motor commands. -/
structure CycleOutputs where
  driveLeft : Int
  driveRight : Int
  clawCmd : Int
  armLeft : Int
  armRight : Int
deriving DecidableEq

/-- One iteration of the `while (true)` body of `operatorControl`
(`src/opcontrol.c` lines 145-225), for the compiled `JOYSTICK_ARM` variant:
low-speed toggle, drive (with halving in low-speed mode), claw block, arm
commands (left and right arm motors get opposite signs, halved after the
`(int)` cast in low-speed mode). -/
def cycle (inp : CycleInputs) (s : LoopState) : LoopState × CycleOutputs :=
  let low := if inp.btn8Right = .pressed then !s.lowSpeed else s.lowSpeed
  let ds := inp.driveAxis
  let ts := turnSpeedOf inp
  let dpair :=
    if low then drive (ds.tdiv LOW_SPEED_DIVISOR) (ts.tdiv LOW_SPEED_DIVISOR) true
    else drive ds ts true
  let clawRes := clawStep inp.btn8Left inp.btn8Down s.claw
  let arm := armSpeedOf inp
  let armL := if low then arm.tdiv LOW_SPEED_DIVISOR else arm
  let armR := if low then (-arm).tdiv LOW_SPEED_DIVISOR else -arm
  (⟨low, clawRes.1⟩, ⟨dpair.1, dpair.2, clawRes.2, armL, armR⟩)

/-- Input sequence for the close/open demonstration trace of the claw state
machine: one toggle press, 30 idle cycles, a second toggle press, 30 idle
cycles (open button idle throughout). -/
def clawDemoInputs : List (ButtonState × ButtonState) :=
  (ButtonState.idle, ButtonState.pressed) ::
    (List.replicate 30 (ButtonState.idle, ButtonState.idle) ++
      (ButtonState.idle, ButtonState.pressed) ::
        List.replicate 30 (ButtonState.idle, ButtonState.idle))

lemma nat_mul_div_le_right (m c : Nat) : m * c / m ≤ c := by
  rcases Nat.eq_zero_or_pos m with h | h
  · simp [h]
  · exact le_of_eq (Nat.mul_div_cancel_left c h)

lemma tdiv_scale_natAbs_le (a m c : Int) (h : a.natAbs ≤ m.natAbs) :
    ((a * c).tdiv m).natAbs ≤ c.natAbs := by
  rw [Int.natAbs_tdiv, Int.natAbs_mul]
  exact le_trans (Nat.div_le_div_right (Nat.mul_le_mul_right c.natAbs h))
    (nat_mul_div_le_right m.natAbs c.natAbs)

lemma natAbs_le_max_left (l r : Int) : l.natAbs ≤ (maxRawSpeed l r).natAbs := by
  have h1 : |l| ≤ maxRawSpeed l r := le_max_left _ _
  rw [Int.abs_eq_natAbs] at h1
  omega

lemma natAbs_le_max_right (l r : Int) : r.natAbs ≤ (maxRawSpeed l r).natAbs := by
  have h1 : |r| ≤ maxRawSpeed l r := le_max_right _ _
  rw [Int.abs_eq_natAbs] at h1
  omega

lemma normalize_natAbs_le (l r : Int) :
    (normalize l r).1.natAbs ≤ 127 ∧ (normalize l r).2.natAbs ≤ 127 := by
  unfold normalize
  split_ifs with h
  · constructor
    · have h2 := tdiv_scale_natAbs_le l (maxRawSpeed l r) MAX_SPEED (natAbs_le_max_left l r)
      simpa [MAX_SPEED] using h2
    · have h2 := tdiv_scale_natAbs_le r (maxRawSpeed l r) MAX_SPEED (natAbs_le_max_right l r)
      simpa [MAX_SPEED] using h2
  · have h2 : maxRawSpeed l r ≤ MAX_SPEED := not_lt.mp h
    have hl : |l| ≤ MAX_SPEED := le_trans (le_max_left _ _) h2
    have hr : |r| ≤ MAX_SPEED := le_trans (le_max_right _ _) h2
    rw [Int.abs_eq_natAbs] at hl hr
    unfold MAX_SPEED at hl hr
    exact ⟨by show l.natAbs ≤ 127; omega, by show r.natAbs ≤ 127; omega⟩

lemma normalize_bounded (l r : Int) :
    max |(normalize l r).1| |(normalize l r).2| ≤ MAX_SPEED := by
  have h := normalize_natAbs_le l r
  rw [Int.abs_eq_natAbs, Int.abs_eq_natAbs]
  unfold MAX_SPEED
  exact max_le (by omega) (by omega)

lemma shape_natAbs (x : Int) : (shape x).natAbs = x.natAbs * x.natAbs / 127 := by
  unfold shape
  rw [Int.natAbs_tdiv, Int.natAbs_mul, Int.natAbs_abs]
  rfl

lemma shape_abs_le {x : Int} (h : |x| ≤ MAX_SPEED) : |shape x| ≤ |x| := by
  rw [Int.abs_eq_natAbs] at h
  rw [Int.abs_eq_natAbs, Int.abs_eq_natAbs]
  unfold MAX_SPEED at h
  have hx : x.natAbs ≤ 127 := by omega
  have h1 : (shape x).natAbs ≤ x.natAbs := by
    rw [shape_natAbs]
    calc x.natAbs * x.natAbs / 127 ≤ x.natAbs * 127 / 127 :=
          Nat.div_le_div_right (Nat.mul_le_mul_left x.natAbs hx)
      _ = x.natAbs := Nat.mul_div_cancel _ (by norm_num)
  omega

lemma shape_neg (x : Int) : shape (-x) = -shape x := by
  unfold shape
  rw [abs_neg, neg_mul, Int.neg_tdiv]

lemma shape_nonneg {x : Int} (h : 0 ≤ x) : 0 ≤ shape x :=
  Int.tdiv_nonneg (mul_nonneg h (abs_nonneg x)) (by decide)

lemma shape_sign_pos (y : Int) (hy : 0 < y) :
    Int.sign (shape y) = Int.sign y ∨ shape y = 0 := by
  have h1 : 0 ≤ shape y := shape_nonneg (le_of_lt hy)
  rcases h1.lt_or_eq with hlt | heq
  · left
    rw [Int.sign_eq_one_iff_pos.mpr hlt, Int.sign_eq_one_iff_pos.mpr hy]
  · right
    exact heq.symm

/-- C1: for every pair of (forward, turn) inputs to `drive` (with or without
input shaping), the normalization step leaves both mixed wheel speeds
bounded: `max |left| |right| <= MAX_SPEED` for the values handed to the
filter and motor outputs. -/
theorem claim_c1 (d t : Int) (sq : Bool) :
    max |(drive d t sq).1| |(drive d t sq).2| ≤ MAX_SPEED :=
  normalize_bounded _ _

/-- C2 (counterexample): in a cycle in which the claw-open button is held,
the counter and the `closeClaw` flag are NOT reset: from the reachable
state `closeClaw = true, i = 2`, a held cycle leaves both unchanged. -/
theorem counterexample_c2 :
    (clawRun [(.idle, .pressed), (.pressed, .idle)] clawInit).1 = ⟨true, 2⟩ ∧
    ¬ ((clawStep .held .idle ⟨true, 2⟩).1.i = 0 ∧
       (clawStep .held .idle ⟨true, 2⟩).1.closeClaw = false) := by decide

/-- C2 (amended): while the claw-open button is held, the claw motor is
forced in the fully-open direction and the state (counter, `closeClaw`) is
left unchanged; on the release edge the motor is stopped and the counter is
reset to 0 and `closeClaw` to false.  Both paths take precedence over the
toggle and ramp logic (they ignore the toggle button input). -/
theorem claim_c2 (tb : ButtonState) (s : ClawState) :
    clawStep .held tb s = (s, -CLAW_SPEED) ∧
    clawStep .released tb s = (⟨false, 0⟩, 0) :=
  ⟨rfl, rfl⟩

set_option maxRecDepth 8000 in
/-- C3: from `closeClaw = false, i = 0`, a toggle press followed by 30 idle
cycles drives the closing speed for exactly `CLAW_OPEN_DURATION` cycles and
then the grip speed; a second toggle press followed by 30 idle cycles
drives the opening speed for exactly `CLAW_OPEN_DURATION` cycles and then
idles; the grip state is a fixed point, and the grip magnitude is lower
than the ramp magnitude. -/
theorem claim_c3 :
    clawRun clawDemoInputs clawInit =
      (clawInit,
        List.replicate 30 CLAW_SPEED ++
          GRIP_STRENGTH :: (List.replicate 30 (-CLAW_SPEED) ++ [0])) ∧
    clawStep .idle .idle ⟨true, CLAW_OPEN_DURATION⟩ =
      (⟨true, CLAW_OPEN_DURATION⟩, GRIP_STRENGTH) ∧
    |GRIP_STRENGTH| < |CLAW_SPEED| := by
  refine ⟨by decide, by decide, by decide⟩

/-- C4 (counterexample to the claim as stated): there is NO `x` in the valid
speed range with `|shape x| > |x|` — the negation of the claimed
existential. -/
theorem counterexample_c4 :
    ¬ ∃ x : Int, |x| ≤ MAX_SPEED ∧ |x| < |shape x| := by
  rintro ⟨x, hx, hlt⟩
  exact absurd (shape_abs_le hx) (not_le.mpr hlt)

/-- C4 (amended): for every `x` in the valid speed range the input-shaping
function satisfies `|shape x| ≤ |x|` — the inequality holds in general. -/
theorem claim_c4 (x : Int) (hx : |x| ≤ MAX_SPEED) : |shape x| ≤ |x| :=
  shape_abs_le hx

theorem claim_c4_witness : |shape 100| ≤ |(100 : Int)| :=
  claim_c4 100 (by decide)

/-- C5 (counterexample): `x = 5` is in the valid speed range but
`sign (shape 5) = 0 ≠ 1 = sign 5`, because the truncating division maps all
`x` with `x^2 < MAX_SPEED` to zero. -/
theorem counterexample_c5 :
    |(5 : Int)| ≤ MAX_SPEED ∧ Int.sign (shape 5) ≠ Int.sign 5 := by decide

/-- C5 (amended): the shaping function satisfies `shape 0 = 0`,
`shape MAX_SPEED = MAX_SPEED`, `shape (-x) = -(shape x)`, and for every `x`
in the valid speed range `sign (shape x) = sign x` or `shape x = 0` (the
latter occurs for small nonzero `x`, whose square is below `MAX_SPEED`). -/
theorem claim_c5 :
    shape 0 = 0 ∧ shape MAX_SPEED = MAX_SPEED ∧
    (∀ x : Int, shape (-x) = -shape x) ∧
    (∀ x : Int, |x| ≤ MAX_SPEED → Int.sign (shape x) = Int.sign x ∨ shape x = 0) := by
  refine ⟨by decide, by decide, shape_neg, ?_⟩
  intro x _hx
  rcases lt_trichotomy x 0 with hneg | rfl | hpos
  · have e : shape x = -shape (-x) := by rw [shape_neg, neg_neg]
    rcases shape_sign_pos (-x) (by omega) with h | h
    · left
      rw [e, Int.sign_neg, h, Int.sign_neg, neg_neg]
    · right
      rw [e, h, neg_zero]
  · right
    decide
  · exact shape_sign_pos x hpos

theorem claim_c5_witness :
    Int.sign (shape 50) = Int.sign 50 ∨ shape 50 = 0 :=
  claim_c5.2.2.2 50 (by decide)

/-- C6: if both mixed values are already within the valid range, the
normalization step is a no-op (exact pass-through of the mixed values). -/
theorem claim_c6 (d t : Int) (h1 : |mixLeft d t| ≤ MAX_SPEED)
    (h2 : |mixRight d t| ≤ MAX_SPEED) :
    normalize (mixLeft d t) (mixRight d t) = (mixLeft d t, mixRight d t) := by
  have h : ¬ MAX_SPEED < maxRawSpeed (mixLeft d t) (mixRight d t) :=
    not_lt.mpr (max_le h1 h2)
  unfold normalize
  exact if_neg h

theorem claim_c6_witness :
    normalize (mixLeft 10 20) (mixRight 10 20) = (mixLeft 10 20, mixRight 10 20) :=
  claim_c6 10 20 (by decide) (by decide)

/-- C7: the claw progress counter starts at 0 and every per-cycle
transition of the claw block preserves `0 ≤ i ≤ CLAW_OPEN_DURATION`. -/
theorem claim_c7 :
    clawInit.i = 0 ∧
    ∀ (ob tb : ButtonState) (s : ClawState),
      0 ≤ s.i → s.i ≤ CLAW_OPEN_DURATION →
      0 ≤ (clawStep ob tb s).1.i ∧ (clawStep ob tb s).1.i ≤ CLAW_OPEN_DURATION := by
  refine ⟨rfl, ?_⟩
  intro ob tb s h0 h1
  obtain ⟨cc, i⟩ := s
  have hC : CLAW_OPEN_DURATION = 30 := rfl
  rw [hC] at h1 ⊢
  cases ob <;> cases tb <;> cases cc <;>
    simp only [clawStep, clawNormal, hC] <;>
    split_ifs <;> simp_all <;> omega

theorem claim_c7_witness :
    0 ≤ (clawStep .idle .idle clawInit).1.i ∧
    (clawStep .idle .idle clawInit).1.i ≤ CLAW_OPEN_DURATION :=
  claim_c7.2 .idle .idle clawInit (by decide) (by decide)

/-- C8: with both raw drive inputs zero the mixed output is zero and the
normalization guard is not taken; the scale division is executed only under
the guard `maxRawSpeed > MAX_SPEED`, whose denominator is then nonzero. -/
theorem claim_c8 :
    (∀ sq : Bool, drive 0 0 sq = (0, 0)) ∧
    ¬ MAX_SPEED < maxRawSpeed (mixLeft (shape 0) (shape 0)) (mixRight (shape 0) (shape 0)) ∧
    (∀ l r : Int, MAX_SPEED < maxRawSpeed l r → maxRawSpeed l r ≠ 0) := by
  refine ⟨by decide, by decide, ?_⟩
  intro l r h h0
  rw [h0] at h
  exact absurd h (by decide)

theorem claim_c8_witness : maxRawSpeed 200 0 ≠ 0 :=
  claim_c8.2.2 200 0 (by decide)

/-- C9: in the compiled analog arm variant the turn axis is zeroed exactly
when either group-6 digital input is pressed, and passes through otherwise;
and with group-6 up not pressed both arm motor commands of the cycle are
zero (only group-6 up actuates the arm in this variant). -/
theorem claim_c9 (inp : CycleInputs) (s : LoopState) :
    ((inp.btn6Up = true ∨ inp.btn6Down = true) → turnSpeedOf inp = 0) ∧
    ((inp.btn6Up = false ∧ inp.btn6Down = false) → turnSpeedOf inp = inp.turnAxis) ∧
    (inp.btn6Up = false →
      (cycle inp s).2.armLeft = 0 ∧ (cycle inp s).2.armRight = 0) := by
  refine ⟨?_, ?_, ?_⟩
  · rintro (h | h) <;> simp [turnSpeedOf, h]
  · rintro ⟨h1, h2⟩
    simp [turnSpeedOf, h1, h2]
  · intro h
    simp [cycle, armSpeedOf, h]

theorem claim_c9_witness :
    turnSpeedOf ⟨.idle, .idle, .idle, true, false, 50, 60, 70⟩ = 0 :=
  (claim_c9 ⟨.idle, .idle, .idle, true, false, 50, 60, 70⟩ loopInit).1 (Or.inl rfl)

/-- C10: on the cycle where the tracked state of the claw-open button is
PRESSED (raw transition low-to-high) the override branch is not taken and
the normal claw logic (toggle edge plus ramp) runs; once the raw level has
stayed high for a further cycle the tracked state is HELD and the forced
open-direction command applies. -/
theorem claim_c10 :
    (∀ (tb : ButtonState) (s : ClawState),
      clawStep (toggleBtnGet false true) tb s = clawNormal tb s ∧
      clawStep (toggleBtnGet true true) tb s = (s, -CLAW_SPEED)) ∧
    clawStep .pressed .pressed clawInit = (⟨true, 1⟩, CLAW_SPEED) :=
  ⟨fun tb s => ⟨rfl, rfl⟩, by decide⟩

end OpControl
